import Mathlib

/-!
Verification of the `publish_conda_stack` build-and-publish pipeline.

The Python sources (`publish_conda_stack/core.py`, `cmdutil.py`, `util.py`)
are shallowly embedded below.  Python strings are modelled as Lean `String`
(with helper functions over `List Char` mirroring `str.split`, `str.replace`,
`str.rsplit`, `pathlib.Path(...).name` and the `in` substring test), fallible
code returns `Except PyError`, and the external world touched by a recipe run
(render output, search results, the file system, exit codes of the invoked
tools) is passed in explicitly as a `World` value.
-/

deriving instance DecidableEq for Except

/-- Python exception values raised by the embedded code. -/
inductive PyError where
  | runtimeError (msg : String)
  | valueError (msg : String)
  | indexError
  | typeError
  | assertionError
  | systemExit (msg : String)
  | calledProcessError (cmd : String)
  deriving DecidableEq, Repr

/-- Whitespace in the sense of Python `str.split()` (ASCII part:
space, tab, newline, carriage return, vertical tab, form feed). -/
def pyIsSpace (c : Char) : Bool :=
  c == ' ' || c == '\t' || c == '\n' || c == '\r' ||
    c == Char.ofNat 11 || c == Char.ofNat 12

/-- Split a character list at every character satisfying `p`, keeping empty
segments (the splitting core of both `str.split(sep)` and `str.split()`). -/
def splitCharRaw (p : Char → Bool) : List Char → List (List Char)
  | [] => [[]]
  | c :: cs =>
    let r := splitCharRaw p cs
    if p c then [] :: r
    else
      match r with
      | [] => [[c]]
      | w :: ws => (c :: w) :: ws

/-- Python `str.split()` with no argument: split on whitespace runs and
drop empty segments. -/
def pyWords (l : List Char) : List (List Char) :=
  (splitCharRaw pyIsSpace l).filter (fun w => !w.isEmpty)

/-- Join segments with a single separator character (inverse of a
single-character split). -/
def joinSepL (c : Char) : List (List Char) → List Char
  | [] => []
  | [w] => w
  | w :: ws => w ++ c :: joinSepL c ws

/-- Fuelled scanner behind `replaceAllL`; replaces non-overlapping
occurrences of `p` left to right, as Python `str.replace` does. -/
def replaceGo (p r : List Char) : Nat → List Char → List Char
  | _, [] => []
  | 0, s => s
  | n + 1, c :: cs =>
    if p.isPrefixOf (c :: cs) then
      r ++ replaceGo p r n ((c :: cs).drop p.length)
    else
      c :: replaceGo p r n cs

/-- Python `s.replace(p, r)` on character lists.  An empty pattern inserts
`r` around every character, exactly as in Python (unused by this code base,
whose patterns are never empty). -/
def replaceAllL (p r s : List Char) : List Char :=
  match p with
  | [] => r ++ s.flatMap (fun c => c :: r)
  | _ => replaceGo p r s.length s

/-- Python `needle in hay` substring test. -/
def isSubstr (needle : List Char) : List Char → Bool
  | [] => needle.isEmpty
  | c :: t => needle.isPrefixOf (c :: t) || isSubstr needle t

/-- Python `pathlib.Path(x).name`: the last path component ('/'-separated, empty
and '.' components dropped). -/
def pathNameL (l : List Char) : List Char :=
  (((splitCharRaw (fun c => c == '/') l).filter
      (fun comp => !(comp.isEmpty || comp == ['.'])))).getLastD []

/-- Python `s.rsplit("-", maxsplit=2)`: peel at most the two rightmost
'-'-separated segments. -/
def rsplit2L (l : List Char) : List (List Char) :=
  let ps := splitCharRaw (fun c => c == '-') l
  if ps.length ≤ 3 then ps
  else joinSepL '-' (ps.take (ps.length - 2)) :: ps.drop (ps.length - 2)

/-- Run a fallible function over a list, propagating the first raised
exception (a Python list comprehension / for loop over a raising body). -/
def mapExcept {α β : Type} (f : α → Except PyError β) : List α → Except PyError (List β)
  | [] => .ok []
  | x :: xs =>
    match f x with
    | .error e => .error e
    | .ok y =>
      match mapExcept f xs with
      | .error e => .error e
      | .ok ys => .ok (y :: ys)

/-- Python `s.replace(old, new)` on strings. -/
def pyReplace (s old new : String) : String :=
  ⟨replaceAllL old.data new.data s.data⟩

/-- Canonical Conda Package Name: `CCPkgName` namedtuple from `core.py`. -/
structure CCPkgName where
  package_name : String
  version : String
  build_string : String
  deriving DecidableEq, Repr

/-- A YAML scalar appearing as a value of a recipe's `environment` mapping
(strings and numbers are what occur in practice). -/
inductive PyVal where
  | str (s : String)
  | int (n : Int)
  deriving DecidableEq, Repr

/-- Python `str(...)` on such a value. -/
def pyStr : PyVal → String
  | .str s => s
  | .int n => toString n

/-- One entry of the `recipe-specs` list of the specs file. -/
structure RecipeSpec where
  name : String
  recipeRepo : String
  tag : String
  recipeSubdir : String
  condaBuildFlags : Option String := none
  buildOn : Option (List String) := none
  environment : Option (List (String × PyVal)) := none
  deriving DecidableEq, Repr

/-- The `shared_config` dictionary as it leaves `parse_specs` (only the
fields consumed by the core pipeline). `backend = none` models a dictionary
missing the key, read through `dict.get` with default `"conda"`. -/
structure SharedConfig where
  condaSourceChannelList : List String
  masterCondaBuildConfig : Option String := none
  labels : List String := []
  uploadChannel : String
  destinationChannel : String
  backend : Option String := none
  tokenString : String := ""

/-- The fields of `conda_build.api.Config` the code reads. -/
structure CondaBldConfig where
  platform : String
  arch : String
  build_folder : String

/-- One record of the JSON object produced by the search tool. -/
structure SearchRecord where
  version : String
  build : String
  deriving DecidableEq, Repr

/-- Outcome of the search invocation in `check_already_exists`: either the
parsed JSON object (an association list keyed by package name), or a
`CalledProcessError` whose combined output is the given text. -/
inductive SearchOutcome where
  | success (results : List (String × List SearchRecord))
  | failure (output : String)

/-- The external world one `build_and_upload_recipe` call interacts with:
git checkout success, the raw stdout of `conda render`, the search outcome,
the build tool's exit status, the build tree contents, and the upload
tool's exit status. -/
structure World where
  checkoutOk : Bool
  renderOutput : String
  searchOutcome : SearchOutcome
  buildOk : Bool
  fileExists : String → Bool
  uploadOk : Bool

/-- Terminal status of one recipe (the key of the dict returned by
`build_and_upload_recipe`, with the identity tuple it carries). -/
inductive Status where
  | skipped
  | found (pkgs : List CCPkgName)
  | built (pkgs : List CCPkgName)
  deriving DecidableEq, Repr

/-- External build/upload tool invocations performed by a recipe run.
An upload invocation records its shell command text and the artifact
paths embedded in it. -/
inductive Invocation where
  | build (cmd : List String)
  | upload (cmd : String) (paths : List String)
  deriving DecidableEq, Repr

/-! ## Embedding of `util.py` -/

/-- Embedding of `util.labels_to_upload_string`. -/
def labels_to_upload_string (label_list : List String) : String :=
  String.intercalate " " (label_list.map (fun label => "--label " ++ label))

/-- Embedding of `util.labels_to_search_args`. -/
def labels_to_search_args (destination_channel : String) (label_list : List String) : List String :=
  label_list.flatMap (fun label => ["--channel", destination_channel ++ "/label/" ++ label])

/-! ## Embedding of `cmdutil.py` -/

/-- Embedding of `cmdutil.DEFAULT_BACKEND`. -/
def DEFAULT_BACKEND : String := "conda"

/-- Embedding of `cmdutil.CondaCommand`. -/
inductive CondaCommand where
  | render
  | search
  | build
  deriving DecidableEq, Repr

/-- Embedding of `cmdutil.conda_cmd_base`.  The trailing `raise ValueError(f"unknown
command supplied...")` of the source is unreachable for the three values of
the `CondaCommand` enum and has no counterpart here. -/
def conda_cmd_base (command : CondaCommand) (shared_config : SharedConfig) :
    Except PyError (List String) :=
  let variant_args : List String :=
    match shared_config.masterCondaBuildConfig with
    | some v => if v = "" then [] else ["-m", v]
    | none => []
  match command with
  | .render =>
    .ok (["conda", "render", "--output"] ++ shared_config.condaSourceChannelList ++ variant_args)
  | .search =>
    let backend := shared_config.backend.getD DEFAULT_BACKEND
    if !(["conda", "mamba"].contains backend) then
      .error (.valueError ("Unknown backend: " ++ backend ++ ". Only `conda` and `mamba` are supported."))
    else
      .ok ([backend, "search", "--json", "--full-name", "--override-channels",
            "--channel", shared_config.uploadChannel] ++
           labels_to_search_args shared_config.uploadChannel shared_config.labels)
  | .build =>
    let backend := shared_config.backend.getD DEFAULT_BACKEND
    if !(["conda", "mamba"].contains backend) then
      .error (.valueError ("Unknown backend: " ++ backend ++ ". Only `conda` and `mamba` are supported."))
    else if backend = "mamba" then
      .ok (["conda", "mambabuild"] ++ shared_config.condaSourceChannelList ++ variant_args)
    else
      .ok ([backend, "build"] ++ shared_config.condaSourceChannelList ++ variant_args)

/-! ## Embedding of `core.py` -/

/-- The archive suffix recognized in render output. -/
def tarBz2 : List Char := ".tar.bz2".data

/-- Parse one artifact token of the render output:
`CCPkgName(*Path(x).name.replace(".tar.bz2", "").rsplit("-", maxsplit=2))`.
A filename yielding fewer than three components makes the starred
constructor call raise `TypeError`. -/
def parseTokenL (x : List Char) : Except PyError CCPkgName :=
  match rsplit2L (replaceAllL tarBz2 [] (pathNameL x)) with
  | [nm, v, b] => .ok ⟨String.mk nm, String.mk v, String.mk b⟩
  | _ => .error .typeError

/-- The filename-extraction and parsing core of `get_rendered_version`:
whitespace-split the raw output, keep the tokens ending in `.tar.bz2`,
parse each. -/
def nameVersionBuilds (render_output : String) : Except PyError (List CCPkgName) :=
  mapExcept parseTokenL
    ((pyWords render_output.data).filter (fun t => tarBz2.isSuffixOf t))

/-- Embedding of `core.get_rendered_version`.  The render command is built (its
construction can in principle raise) and the raw stdout of the invocation
is supplied by the caller; the mismatch message of the source interpolates
the parsed list, elided here. -/
def get_rendered_version (package_name recipe_subdir : String)
    (shared_config : SharedConfig) (render_output : String) :
    Except PyError (List CCPkgName) :=
  match conda_cmd_base .render shared_config with
  | .error e => .error e
  | .ok _render_cmd =>
    match nameVersionBuilds render_output with
    | .error e => .error e
    | .ok name_version_builds =>
      if !(name_version_builds.all (fun x => x.package_name == package_name)) then
        .error (.runtimeError ("Expected all outputs to be " ++ package_name ++ ", but got"))
      else
        .ok name_version_builds

/-- The known zero-result failure signature of the search tool. -/
def notAvailableMsg : String := "following packages are not available from current channels"

/-- Embedding of `core.check_already_exists`: here `c_pkg_names[0]` on an empty tuple raises
`IndexError`; a failing search invocation whose output carries the known
signature is treated as the empty JSON object. -/
def check_already_exists (c_pkg_names : List CCPkgName) (shared_config : SharedConfig)
    (outcome : SearchOutcome) : Except PyError (List (CCPkgName × Bool)) :=
  match c_pkg_names with
  | [] => .error .indexError
  | p0 :: _ =>
    match conda_cmd_base .search shared_config with
    | .error e => .error e
    | .ok _search_cmd =>
      let resultsE : Except PyError (List (String × List SearchRecord)) :=
        match outcome with
        | .success results => .ok results
        | .failure output =>
          if isSubstr notAvailableMsg.data output.data then .ok []
          else .error (.calledProcessError output)
      match resultsE with
      | .error e => .error e
      | .ok search_results =>
        match search_results.lookup p0.package_name with
        | none => .ok (c_pkg_names.map (fun c => (c, false)))
        | some records =>
          .ok (c_pkg_names.map (fun c =>
            (c, records.any (fun result =>
              result.build == c.build_string && result.version == c.version))))

/-- Embedding of `core.build_recipe`: build the command vector, run it; a nonzero exit
becomes `sys.exit(f"Failed to build package: {package_name}")`.  Returns
the invoked command. -/
def build_recipe (package_name recipe_subdir : String) (build_flags : List String)
    (shared_config : SharedConfig) (buildOk : Bool) : Except PyError (List String) :=
  match conda_cmd_base .build shared_config with
  | .error e => .error e
  | .ok base =>
    let build_cmd := base ++ build_flags ++ [recipe_subdir]
    if buildOk then .ok build_cmd
    else .error (.systemExit ("Failed to build package: " ++ package_name))

/-- Artifact-path resolution of `upload_package` for one identity: the
architecture-specific directory first, then the `noarch` fallback,
otherwise `RuntimeError` (`os.path.join` spelled with `/`). -/
def resolvePath (conda_bld_config : CondaBldConfig) (fileExists : String → Bool)
    (c_pkg_name : CCPkgName) : Except PyError String :=
  let pkg_file_name := c_pkg_name.package_name ++ "-" ++ c_pkg_name.version ++ "-" ++
    c_pkg_name.build_string ++ ".tar.bz2"
  let arch_path := conda_bld_config.build_folder ++ "/" ++ conda_bld_config.platform ++ "-" ++
    conda_bld_config.arch ++ "/" ++ pkg_file_name
  let pkg_file_path := if fileExists arch_path then arch_path
    else conda_bld_config.build_folder ++ "/noarch/" ++ pkg_file_name
  if fileExists pkg_file_path then .ok pkg_file_path
  else .error (.runtimeError ("Cant find built package: " ++ pkg_file_name))

/-- The shell command string `upload_package` builds (the f-string of the
source, including its spacing). -/
def uploadCmdOf (package_paths : List String) (shared_config : SharedConfig) : String :=
  "anaconda " ++ shared_config.tokenString ++ " upload --skip-existing -u " ++
    shared_config.uploadChannel ++ " " ++ labels_to_upload_string shared_config.labels ++
    " " ++ String.intercalate " " package_paths

/-- Embedding of `core.upload_package`: resolve every artifact path, invoke the upload
tool once; on a nonzero exit the `CalledProcessError`'s command text is
re-raised with every occurrence of the configured token string replaced.
Returns the resolved paths and the invoked command text. -/
def upload_package (c_pkg_names : List CCPkgName) (shared_config : SharedConfig)
    (conda_bld_config : CondaBldConfig) (fileExists : String → Bool) (uploadOk : Bool) :
    Except PyError (List String × String) :=
  match mapExcept (resolvePath conda_bld_config fileExists) c_pkg_names with
  | .error e => .error e
  | .ok package_paths =>
    let upload_cmd := uploadCmdOf package_paths shared_config
    if uploadOk then .ok (package_paths, upload_cmd)
    else
      .error (.calledProcessError
        (if shared_config.tokenString ≠ "" then
          pyReplace upload_cmd shared_config.tokenString "<token-string removed>"
        else upload_cmd))

/-- The in-place `str(...)` coercion loop `build_and_upload_recipe` runs
over the recipe-spec's `environment` mapping before assembling the build
environment. -/
def coerceSpecEnv (recipe_spec : RecipeSpec) : RecipeSpec :=
  { recipe_spec with
    environment := recipe_spec.environment.map
      (List.map (fun kv => (kv.1, PyVal.str (pyStr kv.2)))) }

/-- Embedding of `core.build_and_upload_recipe` (the per-recipe pipeline), returning the
status dictionary key, the build/upload invocations performed, and the
recipe-spec value as it stands after the run (its `environment` values are
coerced with `str` in place before the build environment is assembled). -/
def build_and_upload_recipe (recipe_spec : RecipeSpec) (shared_config : SharedConfig)
    (conda_bld_config : CondaBldConfig) (w : World) :
    Except PyError (Status × List Invocation × RecipeSpec) :=
  let package_name := recipe_spec.name
  let conda_build_flags : List String :=
    match recipe_spec.condaBuildFlags with
    | none => []
    | some s => if s = "" then [] else s.splitOn " "
  let platformsE : Except PyError (List String) :=
    match recipe_spec.buildOn with
    | some ps =>
      if ps.all (fun o => ["win", "osx", "linux"].contains o) then .ok ps
      else .error .assertionError
    | none => .ok ["win", "osx", "linux"]
  match platformsE with
  | .error e => .error e
  | .ok platforms_to_build_on =>
    if !(platforms_to_build_on.contains conda_bld_config.platform) then
      .ok (.skipped, [], recipe_spec)
    else
      let recipe_spec2 : RecipeSpec := coerceSpecEnv recipe_spec
      if !w.checkoutOk then
        .error (.runtimeError ("Failed to clone or update the repository: " ++ recipe_spec.recipeRepo))
      else
        match get_rendered_version package_name recipe_spec.recipeSubdir shared_config
            w.renderOutput with
        | .error e => .error e
        | .ok c_pkg_names =>
          match check_already_exists c_pkg_names shared_config w.searchOutcome with
          | .error e => .error e
          | .ok packages_found =>
            if packages_found.all (fun x => x.2) then
              .ok (.found c_pkg_names, [], recipe_spec2)
            else
              match build_recipe package_name recipe_spec.recipeSubdir conda_build_flags
                  shared_config w.buildOk with
              | .error e => .error e
              | .ok build_cmd =>
                match upload_package c_pkg_names shared_config conda_bld_config
                    w.fileExists w.uploadOk with
                | .error e => .error e
                | .ok (package_paths, upload_cmd) =>
                  .ok (.built c_pkg_names,
                       [.build build_cmd, .upload upload_cmd package_paths],
                       recipe_spec2)

/-- Embedding of `core.get_selected_specs` (arguments unpacked from `args`); `sys.exit`
with a message is an error, and the returned flag records whether the
order-mismatch warning was logged.  The invalid-selection message of the
source interpolates a Python set, whose iteration order is unspecified;
the names are elided here. -/
def get_selected_specs (start_from : String) (selected_recipes : List String)
    (recipe_specs_path : String) (full_recipe_specs : List RecipeSpec) :
    Except PyError (List RecipeSpec × Bool) :=
  let available_recipe_names := full_recipe_specs.map (·.name)
  let truncatedE : Except PyError (List RecipeSpec) :=
    if start_from ≠ "" then
      if !(available_recipe_names.contains start_from) then
        .error (.systemExit ("start-from parameter invalid: " ++ start_from ++
          " not found in full_recipe_specs."))
      else
        .ok (full_recipe_specs.drop (available_recipe_names.indexOf start_from))
    else .ok full_recipe_specs
  match truncatedE with
  | .error e => .error e
  | .ok full_specs =>
    if selected_recipes.isEmpty then .ok (full_specs, false)
    else
      let invalid_names := selected_recipes.filter
        (fun n => !(available_recipe_names.contains n))
      if !invalid_names.isEmpty then
        .error (.systemExit ("Invalid selection: The following recipes are not listed in " ++
          recipe_specs_path))
      else
        let filtered_specs := full_specs.filter
          (fun spec => selected_recipes.contains spec.name)
        let filtered_names := filtered_specs.map (·.name)
        .ok (filtered_specs, filtered_names != selected_recipes)

/-- The `token-string` assembled by `parse_specs` from the `--token`
argument. -/
def parse_specs_token_string (token : String) : String :=
  if token ≠ "" then "-t " ++ token else ""

/-! ## Lemmas about the character-list utilities -/

theorem splitCharRaw_ne_nil (p : Char → Bool) (l : List Char) : splitCharRaw p l ≠ [] := by
  induction l with
  | nil => simp [splitCharRaw]
  | cons c cs ih =>
    simp only [splitCharRaw]
    by_cases hpc : p c
    · simp [hpc]
    · simp only [hpc, if_false, Bool.false_eq_true]
      cases h : splitCharRaw p cs with
      | nil => exact absurd h ih
      | cons w ws => simp

theorem splitCharRaw_append_sep (p : Char → Bool) (c : Char) (hc : p c = true)
    (a b : List Char) :
    splitCharRaw p (a ++ c :: b) = splitCharRaw p a ++ splitCharRaw p b := by
  induction a with
  | nil => simp [splitCharRaw, hc]
  | cons d a' ih =>
    simp only [List.cons_append, splitCharRaw, List.append_eq]
    rw [ih]
    by_cases hpd : p d
    · simp [hpd]
    · simp only [hpd, if_false, Bool.false_eq_true]
      cases h : splitCharRaw p a' with
      | nil => exact absurd h (splitCharRaw_ne_nil p a')
      | cons w ws => simp

theorem splitCharRaw_no_sep (p : Char → Bool) (l : List Char)
    (h : ∀ c ∈ l, p c = false) : splitCharRaw p l = [l] := by
  induction l with
  | nil => rfl
  | cons c cs ih =>
    have hc : p c = false := h c (by simp)
    have ih' := ih (fun d hd => h d (by simp [hd]))
    simp [splitCharRaw, hc, ih']

theorem joinSepL_cons₂ (c : Char) (w x : List Char) (xs : List (List Char)) :
    joinSepL c (w :: x :: xs) = w ++ c :: joinSepL c (x :: xs) := rfl

theorem joinSepL_splitCharRaw (c : Char) (l : List Char) :
    joinSepL c (splitCharRaw (fun d => d == c) l) = l := by
  induction l with
  | nil => rfl
  | cons d l' ih =>
    simp only [splitCharRaw]
    by_cases hd : (d == c) = true
    · have hdc : d = c := by simpa using hd
      simp only [hd, if_true]
      cases h : splitCharRaw (fun d => d == c) l' with
      | nil => exact absurd h (splitCharRaw_ne_nil _ l')
      | cons w ws =>
        rw [joinSepL_cons₂]
        rw [h] at ih
        simp [hdc, ih]
    · simp only [hd, if_false, Bool.false_eq_true]
      cases h : splitCharRaw (fun d => d == c) l' with
      | nil => exact absurd h (splitCharRaw_ne_nil _ l')
      | cons w ws =>
        rw [h] at ih
        cases ws with
        | nil => simpa [joinSepL] using congrArg (d :: ·) ih
        | cons x xs =>
          rw [joinSepL_cons₂] at ih ⊢
          simpa using congrArg (d :: ·) ih

theorem pyWords_append_sep (c : Char) (hc : pyIsSpace c = true) (a b : List Char) :
    pyWords (a ++ c :: b) = pyWords a ++ pyWords b := by
  simp [pyWords, splitCharRaw_append_sep pyIsSpace c hc, List.filter_append]

theorem pyWords_ws_left (s b : List Char) (hs : ∀ c ∈ s, pyIsSpace c = true) :
    pyWords (s ++ b) = pyWords b := by
  induction s with
  | nil => rfl
  | cons c s' ih =>
    have ihe := ih (fun d hd => hs d (by simp [hd]))
    have h1 : (c :: s') ++ b = [] ++ c :: (s' ++ b) := by simp
    rw [h1, pyWords_append_sep c (hs c (by simp)) [] (s' ++ b), ihe]
    rfl

theorem pyWords_append_ws (sep a b : List Char) (hne : sep ≠ [])
    (hs : ∀ c ∈ sep, pyIsSpace c = true) :
    pyWords (a ++ sep ++ b) = pyWords a ++ pyWords b := by
  cases sep with
  | nil => exact absurd rfl hne
  | cons c rest =>
    have : a ++ (c :: rest) ++ b = a ++ c :: (rest ++ b) := by simp
    rw [this, pyWords_append_sep c (hs c (by simp)) a (rest ++ b),
      pyWords_ws_left rest b (fun d hd => hs d (by simp [hd]))]

theorem pyWords_single (l : List Char) (hne : l ≠ [])
    (h : ∀ c ∈ l, pyIsSpace c = false) : pyWords l = [l] := by
  simp [pyWords, splitCharRaw_no_sep pyIsSpace l h, hne]

theorem rsplit2L_eq (nm v b : List Char)
    (hv : ∀ c ∈ v, (c == '-') = false) (hb : ∀ c ∈ b, (c == '-') = false) :
    rsplit2L (nm ++ '-' :: (v ++ '-' :: b)) = [nm, v, b] := by
  have hsplit : splitCharRaw (fun c => c == '-') (nm ++ '-' :: (v ++ '-' :: b)) =
      splitCharRaw (fun c => c == '-') nm ++ [v, b] := by
    rw [splitCharRaw_append_sep _ '-' (by simp) nm (v ++ '-' :: b),
      splitCharRaw_append_sep _ '-' (by simp) v b,
      splitCharRaw_no_sep _ v hv, splitCharRaw_no_sep _ b hb]
    simp
  have hjoin : joinSepL '-' (splitCharRaw (fun c => c == '-') nm) = nm :=
    joinSepL_splitCharRaw '-' nm
  obtain ⟨w, ws, hS⟩ : ∃ w ws, splitCharRaw (fun c => c == '-') nm = w :: ws := by
    cases h : splitCharRaw (fun c => c == '-') nm with
    | nil => exact absurd h (splitCharRaw_ne_nil _ nm)
    | cons w ws => exact ⟨w, ws, rfl⟩
  rw [hS] at hsplit hjoin
  simp only [rsplit2L, hsplit]
  cases ws with
  | nil =>
    have hw : w = nm := by simpa [joinSepL] using hjoin
    subst hw
    have h3 : (([w] : List (List Char)) ++ [v, b]).length ≤ 3 := by simp
    rw [if_pos h3]
    rfl
  | cons x xs =>
    have hgt : ¬ (((w :: x :: xs) ++ [v, b]).length ≤ 3) := by
      simp only [List.length_append, List.length_cons]
      omega
    rw [if_neg hgt]
    have htk : ((w :: x :: xs) ++ [v, b]).length - 2 = (w :: x :: xs).length := by
      simp only [List.length_append, List.length_cons]
      simp
    rw [htk, List.take_left, List.drop_left, hjoin]

/-! ## Lemmas about `replaceAllL` (Python `str.replace`) -/

theorem replaceGo_fuel (p r : List Char) (hp : p ≠ []) :
    ∀ (n m : Nat) (s : List Char), s.length ≤ n → s.length ≤ m →
      replaceGo p r n s = replaceGo p r m s := by
  intro n
  induction n with
  | zero =>
    intro m s hn _
    have : s = [] := by
      cases s with
      | nil => rfl
      | cons c cs => simp at hn
    subst this
    cases m <;> rfl
  | succ n ih =>
    intro m s hn hm
    cases s with
    | nil => cases m <;> rfl
    | cons c cs =>
      cases m with
      | zero => simp at hm
      | succ m' =>
        have hplen : 1 ≤ p.length := by
          cases p with
          | nil => exact absurd rfl hp
          | cons _ _ => simp
        simp only [replaceGo]
        by_cases hpre : p.isPrefixOf (c :: cs) = true
        · rw [if_pos hpre, if_pos hpre]
          have hd : ((c :: cs).drop p.length).length ≤ n := by
            simp only [List.length_drop, List.length_cons] at *
            omega
          have hd' : ((c :: cs).drop p.length).length ≤ m' := by
            simp only [List.length_drop, List.length_cons] at *
            omega
          rw [ih _ _ hd hd']
        · rw [if_neg hpre, if_neg hpre]
          have hc : cs.length ≤ n := by simp at hn; omega
          have hc' : cs.length ≤ m' := by simp at hm; omega
          rw [ih _ _ hc hc']

theorem replaceAllL_nil (p r : List Char) (hp : p ≠ []) : replaceAllL p r [] = [] := by
  cases p with
  | nil => exact absurd rfl hp
  | cons c cs => rfl

theorem replaceAllL_cons (p r : List Char) (hp : p ≠ []) (c : Char) (cs : List Char) :
    replaceAllL p r (c :: cs) =
      if p.isPrefixOf (c :: cs) then r ++ replaceAllL p r ((c :: cs).drop p.length)
      else c :: replaceAllL p r cs := by
  have hplen : 1 ≤ p.length := by
    cases p with
    | nil => exact absurd rfl hp
    | cons _ _ => simp
  cases p with
  | nil => exact absurd rfl hp
  | cons q p' =>
    show replaceGo (q :: p') r (c :: cs).length (c :: cs) = _
    simp only [List.length_cons, replaceGo]
    by_cases hpre : (q :: p').isPrefixOf (c :: cs) = true
    · rw [if_pos hpre, if_pos hpre]
      congr 1
      exact replaceGo_fuel (q :: p') r hp _ _ _
        (by simp only [List.length_drop, List.length_cons] at *; omega)
        (le_refl _)
    · rw [if_neg hpre, if_neg hpre]
      rfl

theorem replaceAllL_not_substr (p r s : List Char) (hp : p ≠ [])
    (h : isSubstr p s = false) : replaceAllL p r s = s := by
  induction s with
  | nil => exact replaceAllL_nil p r hp
  | cons c cs ih =>
    simp only [isSubstr, Bool.or_eq_false_iff] at h
    rw [replaceAllL_cons p r hp c cs]
    simp only [h.1, if_false, Bool.false_eq_true]
    rw [ih h.2]

theorem replaceAllL_head_miss (q : Char) (p' r A s : List Char) (hA : q ∉ A) :
    replaceAllL (q :: p') r (A ++ s) = A ++ replaceAllL (q :: p') r s := by
  induction A with
  | nil => rfl
  | cons a A' ih =>
    have hqa : (q == a) = false := by
      have : q ≠ a := fun h => hA (by simp [h])
      simpa using this
    rw [List.cons_append, replaceAllL_cons (q :: p') r (by simp) a (A' ++ s)]
    have hpre : (q :: p').isPrefixOf (a :: (A' ++ s)) = false := by
      simp [List.isPrefixOf, hqa]
    rw [if_neg (by simp [hpre]), ih (fun h => hA (by simp [h]))]
    simp

theorem isPrefixOf_append_self (p s : List Char) : p.isPrefixOf (p ++ s) = true := by
  induction p with
  | nil => simp [List.isPrefixOf]
  | cons c cs ih => simp [List.isPrefixOf, ih]

theorem replaceAllL_head_hit (p r s : List Char) (hp : p ≠ []) :
    replaceAllL p r (p ++ s) = r ++ replaceAllL p r s := by
  cases p with
  | nil => exact absurd rfl hp
  | cons q p' =>
    rw [List.cons_append, replaceAllL_cons (q :: p') r hp q (p' ++ s)]
    have hpre : (q :: p').isPrefixOf (q :: (p' ++ s)) = true := isPrefixOf_append_self _ s
    simp only [hpre, if_true]
    congr 1
    have : (q :: (p' ++ s)).drop (q :: p').length = s := List.drop_left (q :: p') s
    rw [this]

/-! ## Lemmas about `isSubstr` (Python `in`) -/

theorem isPrefixOf_iff_exists (p l : List Char) :
    p.isPrefixOf l = true ↔ ∃ t, l = p ++ t := by
  induction p generalizing l with
  | nil => simp [List.isPrefixOf]
  | cons c cs ih =>
    cases l with
    | nil => simp [List.isPrefixOf]
    | cons d ds =>
      simp only [List.isPrefixOf, Bool.and_eq_true, beq_iff_eq, ih]
      constructor
      · rintro ⟨hcd, t, ht⟩
        exact ⟨t, by simp [hcd, ht]⟩
      · rintro ⟨t, ht⟩
        simp only [List.cons_append, List.cons.injEq] at ht
        exact ⟨ht.1.symm, t, ht.2⟩

theorem isSubstr_iff (n h : List Char) :
    isSubstr n h = true ↔ ∃ a b, h = a ++ n ++ b := by
  induction h with
  | nil =>
    simp only [isSubstr, List.isEmpty_iff]
    constructor
    · rintro rfl; exact ⟨[], [], rfl⟩
    · rintro ⟨a, b, hab⟩
      have := hab.symm
      simp only [List.append_eq_nil] at this
      exact this.1.2
  | cons c t ih =>
    simp only [isSubstr, Bool.or_eq_true, ih, isPrefixOf_iff_exists]
    constructor
    · rintro (⟨s, hs⟩ | ⟨a, b, hab⟩)
      · exact ⟨[], s, by simp [hs]⟩
      · exact ⟨c :: a, b, by simp [hab]⟩
    · rintro ⟨a, b, hab⟩
      cases a with
      | nil =>
        left
        exact ⟨b, by simpa using hab⟩
      | cons x xs =>
        right
        simp only [List.cons_append, List.cons.injEq] at hab
        exact ⟨xs, b, hab.2⟩

theorem isSubstr_append_left_any (n a b : List Char) (h : isSubstr n b = true) :
    isSubstr n (a ++ b) = true := by
  rw [isSubstr_iff] at h ⊢
  obtain ⟨x, y, hxy⟩ := h
  exact ⟨a ++ x, y, by simp [hxy]⟩

theorem isSubstr_self (n : List Char) : isSubstr n n = true := by
  rw [isSubstr_iff]
  exact ⟨[], [], by simp⟩

theorem isSubstr_trans (a b c : List Char) (h1 : isSubstr a b = true)
    (h2 : isSubstr b c = true) : isSubstr a c = true := by
  rw [isSubstr_iff] at h1 h2 ⊢
  obtain ⟨x, y, hxy⟩ := h1
  obtain ⟨u, v, huv⟩ := h2
  exact ⟨u ++ x, y ++ v, by simp [huv, hxy]⟩

/-! ## Lemmas about `mapExcept` -/

theorem mapExcept_ok_mem {α β : Type} (f : α → Except PyError β) (l : List α)
    (ys : List β) (h : mapExcept f l = .ok ys) :
    ∀ x ∈ l, ∃ y, f x = .ok y ∧ y ∈ ys := by
  induction l generalizing ys with
  | nil => intro x hx; simp at hx
  | cons a l' ih =>
    intro x hx
    simp only [mapExcept] at h
    cases hfa : f a with
    | error e => rw [hfa] at h; simp at h
    | ok y =>
      rw [hfa] at h
      cases hrest : mapExcept f l' with
      | error e => rw [hrest] at h; simp at h
      | ok ys' =>
        rw [hrest] at h
        simp only [Except.ok.injEq] at h
        subst h
        rcases List.mem_cons.mp hx with hax | hxl
        · exact ⟨y, by rw [hax]; exact hfa, by simp⟩
        · obtain ⟨y', hy', hmem⟩ := ih ys' hrest x hxl
          exact ⟨y', hy', by simp [hmem]⟩

theorem mapExcept_error_exists {α β : Type} (f : α → Except PyError β) (l : List α)
    (e : PyError) (h : mapExcept f l = .error e) :
    ∃ x ∈ l, f x = .error e := by
  induction l with
  | nil => simp [mapExcept] at h
  | cons a l' ih =>
    simp only [mapExcept] at h
    cases hfa : f a with
    | error e' =>
      rw [hfa] at h
      simp only [Except.error.injEq] at h
      exact ⟨a, by simp, by rw [hfa, h]⟩
    | ok y =>
      rw [hfa] at h
      cases hrest : mapExcept f l' with
      | error e' =>
        rw [hrest] at h
        simp only [Except.error.injEq] at h
        obtain ⟨x, hx, hfx⟩ := ih (by rw [hrest, h])
        exact ⟨x, by simp [hx], hfx⟩
      | ok ys' => rw [hrest] at h; simp at h

/-! ## Claim theorems -/

/-- C7: `conda_cmd_base` maps verbs to base tools as follows: the render
command always begins with the token `conda` regardless of the configured
backend; the build command begins with the two tokens `conda`,
`mambabuild` when the backend is mamba — never with the token `mamba` —
and with `conda`, `build` when the backend is conda. -/
theorem c7_cmd_base_tools (cfg : SharedConfig) :
    ((conda_cmd_base CondaCommand.render cfg).map
        (fun args => ["conda"].isPrefixOf args) = .ok true) ∧
    (cfg.backend.getD DEFAULT_BACKEND = "mamba" →
      (conda_cmd_base CondaCommand.build cfg).map
        (fun args => ["conda", "mambabuild"].isPrefixOf args) = .ok true) ∧
    (cfg.backend.getD DEFAULT_BACKEND = "conda" →
      (conda_cmd_base CondaCommand.build cfg).map
        (fun args => ["conda", "build"].isPrefixOf args) = .ok true) := by
  refine ⟨?_, fun h => ?_, fun h => ?_⟩
  · simp [conda_cmd_base, Except.map, List.isPrefixOf]
  · simp [conda_cmd_base, h, Except.map, List.isPrefixOf]
  · simp [conda_cmd_base, h, Except.map, List.isPrefixOf]

/-- Shared configuration with the default (`conda`) backend, used to
instantiate backend-generic theorems. -/
def cfgCondaBackend : SharedConfig :=
  { condaSourceChannelList := ["-c", "tf"], uploadChannel := "u",
    destinationChannel := "d" }

/-- Shared configuration with the `mamba` backend. -/
def cfgMambaBackend : SharedConfig :=
  { condaSourceChannelList := ["-c", "tf"], uploadChannel := "u",
    destinationChannel := "d", backend := some "mamba" }

/-- Witness for C7 at concrete configurations. -/
theorem c7_cmd_base_tools_witness :
    ((conda_cmd_base CondaCommand.render cfgCondaBackend).map
        (fun args => ["conda"].isPrefixOf args) = .ok true) ∧
    ((conda_cmd_base CondaCommand.build cfgMambaBackend).map
        (fun args => ["conda", "mambabuild"].isPrefixOf args) = .ok true) ∧
    ((conda_cmd_base CondaCommand.build cfgCondaBackend).map
        (fun args => ["conda", "build"].isPrefixOf args) = .ok true) :=
  ⟨(c7_cmd_base_tools cfgCondaBackend).1,
   (c7_cmd_base_tools cfgMambaBackend).2.1 rfl,
   (c7_cmd_base_tools cfgCondaBackend).2.2 rfl⟩

/-- Configuration with an unrecognized backend, for C8. -/
def cfgPixiBackend : SharedConfig :=
  { condaSourceChannelList := [], uploadChannel := "u",
    destinationChannel := "d", backend := some "pixi" }

/-- C8 counterexample: with the unrecognized backend `pixi`, the `render`
verb does not fail — `conda_cmd_base` returns a command without consulting
the backend, so the claim "fails ... for each of the three verbs render,
search, and build" is false for `render`. -/
theorem c8_render_unknown_backend_counterexample :
    conda_cmd_base CondaCommand.render cfgPixiBackend =
      .ok ["conda", "render", "--output"] := by decide

/-- C8 (amended): for every backend value that is neither `conda` nor
`mamba`, `conda_cmd_base` fails with a configuration error for the
`search` and `build` verbs; the `render` verb never consults the backend
and always returns a command starting with `conda`. -/
theorem c8_unknown_backend_amended (cfg : SharedConfig) (b : String)
    (hb : cfg.backend.getD DEFAULT_BACKEND = b)
    (hnc : b ≠ "conda") (hnm : b ≠ "mamba") :
    conda_cmd_base CondaCommand.search cfg =
      .error (.valueError ("Unknown backend: " ++ b ++
        ". Only `conda` and `mamba` are supported.")) ∧
    conda_cmd_base CondaCommand.build cfg =
      .error (.valueError ("Unknown backend: " ++ b ++
        ". Only `conda` and `mamba` are supported.")) ∧
    (conda_cmd_base CondaCommand.render cfg).map
      (fun args => ["conda"].isPrefixOf args) = .ok true := by
  have hcont : (["conda", "mamba"].contains b) = false := by
    simp [hnc, hnm]
  refine ⟨?_, ?_, ?_⟩
  · simp only [conda_cmd_base, hb, hcont]
    rfl
  · simp only [conda_cmd_base, hb, hcont]
    rfl
  · simp [conda_cmd_base, Except.map, List.isPrefixOf]

/-- Witness for the amended C8 at the concrete backend `pixi`. -/
theorem c8_unknown_backend_witness :
    conda_cmd_base CondaCommand.search cfgPixiBackend =
      .error (.valueError ("Unknown backend: " ++ "pixi" ++
        ". Only `conda` and `mamba` are supported.")) ∧
    conda_cmd_base CondaCommand.build cfgPixiBackend =
      .error (.valueError ("Unknown backend: " ++ "pixi" ++
        ". Only `conda` and `mamba` are supported.")) ∧
    (conda_cmd_base CondaCommand.render cfgPixiBackend).map
      (fun args => ["conda"].isPrefixOf args) = .ok true :=
  c8_unknown_backend_amended cfgPixiBackend "pixi" rfl
    (by decide) (by decide)

/-- C3: if the search invocation exits nonzero and its output contains the
known zero-result signature, `check_already_exists` treats the failure
identically to zero results and reports every queried identity as not
found; a nonzero exit without that signature is propagated as an error. -/
theorem c3_search_failure_signature (cfg : SharedConfig) (out : String)
    (p0 : CCPkgName) (rest : List CCPkgName)
    (hb : cfg.backend.getD DEFAULT_BACKEND = "conda" ∨
          cfg.backend.getD DEFAULT_BACKEND = "mamba") :
    (isSubstr notAvailableMsg.data out.data = true →
      check_already_exists (p0 :: rest) cfg (.failure out) =
        check_already_exists (p0 :: rest) cfg (.success []) ∧
      check_already_exists (p0 :: rest) cfg (.failure out) =
        .ok ((p0 :: rest).map (fun c => (c, false)))) ∧
    (isSubstr notAvailableMsg.data out.data = false →
      check_already_exists (p0 :: rest) cfg (.failure out) =
        .error (.calledProcessError out)) := by
  have hcmd : ∃ cmd, conda_cmd_base CondaCommand.search cfg = .ok cmd := by
    rcases hb with hb | hb <;> exact ⟨_, by simp only [conda_cmd_base, hb]; rfl⟩
  obtain ⟨cmd, hcmd⟩ := hcmd
  constructor
  · intro h
    constructor <;> simp [check_already_exists, hcmd, h]
  · intro h
    simp [check_already_exists, hcmd, h]

/-- Concrete single-identity tuple for instantiating existence-check
theorems. -/
def onePkg : CCPkgName := ⟨"mypack", "1.0", "py38"⟩

/-- Witness for C3: a failing search whose output carries the signature is
reported as all-not-found, and one without it propagates. -/
theorem c3_search_failure_signature_witness :
    (check_already_exists [onePkg] cfgCondaBackend
        (.failure "The following packages are not available from current channels: x") =
      check_already_exists [onePkg] cfgCondaBackend (.success []) ∧
     check_already_exists [onePkg] cfgCondaBackend
        (.failure "The following packages are not available from current channels: x") =
      .ok ([onePkg].map (fun c => (c, false)))) ∧
    check_already_exists [onePkg] cfgCondaBackend (.failure "kaboom") =
      .error (.calledProcessError "kaboom") :=
  ⟨(c3_search_failure_signature cfgCondaBackend
      "The following packages are not available from current channels: x"
      onePkg [] (Or.inl rfl)).1 (by decide),
   (c3_search_failure_signature cfgCondaBackend "kaboom"
      onePkg [] (Or.inl rfl)).2 (by decide)⟩

/-- C4: under a cleanly parsing render output, `get_rendered_version`
fails with a validation error when any parsed identity's name differs from
the expected package name, and returns the parsed tuple exactly when every
name matches. -/
theorem c4_name_mismatch_validation (package_name recipe_subdir : String)
    (cfg : SharedConfig) (raw : String) (pkgs : List CCPkgName)
    (hparse : nameVersionBuilds raw = .ok pkgs) :
    (pkgs.all (fun x => x.package_name == package_name) = true →
      get_rendered_version package_name recipe_subdir cfg raw = .ok pkgs) ∧
    (pkgs.all (fun x => x.package_name == package_name) = false →
      get_rendered_version package_name recipe_subdir cfg raw =
        .error (.runtimeError ("Expected all outputs to be " ++ package_name ++
          ", but got"))) ∧
    (∀ res, get_rendered_version package_name recipe_subdir cfg raw = .ok res →
      res = pkgs ∧ ∀ p ∈ pkgs, p.package_name = package_name) := by
  refine ⟨fun h => ?_, fun h => ?_, fun res hres => ?_⟩
  · simp [get_rendered_version, conda_cmd_base, hparse, h]
  · simp [get_rendered_version, conda_cmd_base, hparse, h]
  · by_cases h : pkgs.all (fun x => x.package_name == package_name) = true
    · constructor
      · simp [get_rendered_version, conda_cmd_base, hparse, h] at hres
        exact hres.symm
      · intro p hp
        have := List.all_eq_true.mp h p hp
        simpa using this
    · have h' : pkgs.all (fun x => x.package_name == package_name) = false := by
        revert h; cases pkgs.all (fun x => x.package_name == package_name) <;> simp
      simp [get_rendered_version, conda_cmd_base, hparse, h'] at hres

/-- Witness for C4: a matching output returns the tuple; a mismatching
output is a hard error. -/
theorem c4_name_mismatch_validation_witness :
    get_rendered_version "abc" "mock" cfgCondaBackend
      "/p/abc-1.0.0-0py0.tar.bz2" = .ok [⟨"abc", "1.0.0", "0py0"⟩] ∧
    get_rendered_version "abc" "mock" cfgCondaBackend
      "/p/abc-1.0.0-0py0.tar.bz2 /p/notabc-1.0.0-1py2.tar.bz2" =
      .error (.runtimeError ("Expected all outputs to be " ++ "abc" ++ ", but got")) :=
  ⟨(c4_name_mismatch_validation "abc" "mock" cfgCondaBackend
      "/p/abc-1.0.0-0py0.tar.bz2" [⟨"abc", "1.0.0", "0py0"⟩] (by decide)).1 (by decide),
   (c4_name_mismatch_validation "abc" "mock" cfgCondaBackend
      "/p/abc-1.0.0-0py0.tar.bz2 /p/notabc-1.0.0-1py2.tar.bz2"
      [⟨"abc", "1.0.0", "0py0"⟩, ⟨"notabc", "1.0.0", "1py2"⟩] (by decide)).2.1 (by decide)⟩

/-- Raw render output assembled from segments with a fixed line separator
(the shape of the texts quantified over in the parsing claims). -/
def strJoin (sep : String) : List String → String
  | [] => ""
  | [x] => x
  | x :: xs => x ++ sep ++ strJoin sep xs

theorem strJoin_cons₂ (sep x y : String) (xs : List String) :
    (strJoin sep (x :: y :: xs)).data =
      x.data ++ sep.data ++ (strJoin sep (y :: xs)).data := by
  simp [strJoin, String.data_append]

theorem pyWords_strJoin (sep : String) (hne : sep.data ≠ [])
    (hws : ∀ c ∈ sep.data, pyIsSpace c = true) (L : List String) :
    pyWords (strJoin sep L).data = L.flatMap (fun t => pyWords t.data) := by
  induction L with
  | nil => rfl
  | cons x xs ih =>
    cases xs with
    | nil => simp [strJoin]
    | cons y ys =>
      rw [strJoin_cons₂, pyWords_append_ws sep.data x.data _ hne hws, ih]
      simp

/-- Definition following the spec's words for comparison: strip the
archive suffix `.tar.bz2` (remove it once, from the end) from a
filename. -/
def stripArchiveSuffix (filename : List Char) : List Char :=
  if tarBz2.isSuffixOf filename then filename.take (filename.length - tarBz2.length)
  else filename

/-- C2 counterexample: for the token `x.tar.bz2-1.0-0.tar.bz2` (whose
filename contains `.tar.bz2` in the middle), the code deletes **every**
occurrence of `.tar.bz2` (Python `str.replace`), parsing the identity
`(x, 1.0, 0)`, while stripping only the trailing suffix — the claim's
description — would yield the name `x.tar.bz2`. -/
theorem c2_suffix_strip_counterexample :
    parseTokenL "x.tar.bz2-1.0-0.tar.bz2".data = .ok ⟨"x", "1.0", "0"⟩ ∧
    rsplit2L (stripArchiveSuffix (pathNameL "x.tar.bz2-1.0-0.tar.bz2".data)) =
      ["x.tar.bz2".data, "1.0".data, "0".data] ∧
    ("x" : String) ≠ "x.tar.bz2" := by
  refine ⟨by decide, by decide, by decide⟩

/-- C2 (amended): for every raw render-output text, each
whitespace-separated token ending in `.tar.bz2` yields one identity
obtained by deleting every occurrence of `.tar.bz2` from the token's
filename (which coincides with stripping the suffix whenever `.tar.bz2`
occurs only as the suffix) and splitting right-to-left on `-` with at most
two splits, so a package name that itself contains `-` (e.g. `a-b-c` in
`a-b-c-1.0.0-0py0.tar.bz2`) parses to `(a-b-c, 1.0.0, 0py0)`; the returned
tuple lists identities in the order their tokens appear, and interleaved
non-artifact diagnostic text and either Unix or Windows line endings do
not change the result. -/
theorem c2_render_parsing_amended :
    (∀ L : List String,
      nameVersionBuilds (strJoin "\r\n" L) = nameVersionBuilds (strJoin "\n" L)) ∧
    (∀ toks : List String,
      (∀ t ∈ toks, t.data ≠ [] ∧ ∀ c ∈ t.data, pyIsSpace c = false) →
      nameVersionBuilds (strJoin "\n" toks) =
        mapExcept parseTokenL
          ((toks.map (fun t => t.data)).filter (fun t => tarBz2.isSuffixOf t))) ∧
    (∀ (tok nm v b : List Char),
      replaceAllL tarBz2 [] (pathNameL tok) = nm ++ '-' :: (v ++ '-' :: b) →
      (∀ c ∈ v, (c == '-') = false) → (∀ c ∈ b, (c == '-') = false) →
      parseTokenL tok = .ok ⟨String.mk nm, String.mk v, String.mk b⟩) ∧
    parseTokenL "a-b-c-1.0.0-0py0.tar.bz2".data = .ok ⟨"a-b-c", "1.0.0", "0py0"⟩ := by
  refine ⟨fun L => ?_, fun toks h => ?_, fun tok nm v b hrep hv hb2 => ?_, by decide⟩
  · unfold nameVersionBuilds
    rw [pyWords_strJoin "\r\n" (by decide) (by decide) L,
        pyWords_strJoin "\n" (by decide) (by decide) L]
  · unfold nameVersionBuilds
    rw [pyWords_strJoin "\n" (by decide) (by decide) toks]
    congr 1
    congr 1
    induction toks with
    | nil => rfl
    | cons x xs ih =>
      have hx := h x (by simp)
      rw [List.flatMap_cons, pyWords_single x.data hx.1 hx.2,
        List.map_cons, ih (fun t ht => h t (by simp [ht]))]
      rfl
  · simp only [parseTokenL, hrep, rsplit2L_eq nm v b hv hb2]

/-- Witness for the amended C2: concrete invocations of each universally
quantified conjunct. -/
theorem c2_render_parsing_witness :
    nameVersionBuilds (strJoin "\n" ["noise", "a-b-c-1.0.0-0py0.tar.bz2"]) =
      mapExcept parseTokenL
        (((["noise", "a-b-c-1.0.0-0py0.tar.bz2"] : List String).map
            (fun t => t.data)).filter (fun t => tarBz2.isSuffixOf t)) ∧
    nameVersionBuilds (strJoin "\r\n" ["/p/abc-1.0-0.tar.bz2", "/p/abc-1.0-1.tar.bz2"]) =
      nameVersionBuilds (strJoin "\n" ["/p/abc-1.0-0.tar.bz2", "/p/abc-1.0-1.tar.bz2"]) ∧
    parseTokenL "p-2.0-1.tar.bz2".data =
      .ok ⟨String.mk "p".data, String.mk "2.0".data, String.mk "1".data⟩ :=
  ⟨c2_render_parsing_amended.2.1 ["noise", "a-b-c-1.0.0-0py0.tar.bz2"] (by decide),
   c2_render_parsing_amended.1 ["/p/abc-1.0-0.tar.bz2", "/p/abc-1.0-1.tar.bz2"],
   c2_render_parsing_amended.2.2.1 "p-2.0-1.tar.bz2".data "p".data "2.0".data "1".data
     (by decide) (by decide) (by decide)⟩

/-- The part of the upload command following the token flag. -/
def uploadCmdTailText (package_paths : List String) (shared_config : SharedConfig) : String :=
  " upload --skip-existing -u " ++ shared_config.uploadChannel ++ " " ++
    labels_to_upload_string shared_config.labels ++ " " ++
    String.intercalate " " package_paths

/-- The upload command with the redaction marker in place of the token
flag: the text a fully redacted error is expected to carry. -/
def uploadCmdRedactedText (package_paths : List String) (shared_config : SharedConfig) : String :=
  "anaconda " ++ "<token-string removed>" ++ uploadCmdTailText package_paths shared_config

/-- Configuration whose token is the literal string `upload`, colliding
with the upload tool's subcommand word. -/
def c5cfg : SharedConfig :=
  { condaSourceChannelList := [], uploadChannel := "chan",
    destinationChannel := "chan", tokenString := parse_specs_token_string "upload" }

/-- The error text surfaced by the failing upload under `c5cfg`. -/
def c5err : String :=
  match upload_package [⟨"pkg", "1.0", "0"⟩] c5cfg ⟨"linux", "64", "/bld"⟩
      (fun _ => true) false with
  | .error (.calledProcessError e) => e
  | _ => ""

/-- C5 counterexample: with the configured token `upload`, the surfaced
error text of a failing upload still contains the literal configured token
string (the redaction removes only the `-t <token>` flag pair, and the
word `upload` also occurs as the tool's subcommand). -/
theorem c5_token_in_error_counterexample :
    upload_package [⟨"pkg", "1.0", "0"⟩] c5cfg ⟨"linux", "64", "/bld"⟩
        (fun _ => true) false = .error (.calledProcessError c5err) ∧
    isSubstr "upload".data c5err.data = true := by
  refine ⟨by decide, by decide⟩

/-- C5 (amended): for every failing upload invocation and every non-empty
configured token, the flag occurrence `-t <token>` is replaced by
`<token-string removed>` before the error propagates; consequently the
surfaced error text does not contain the literal token whenever the token
does not also occur as a substring of the redacted command text (i.e. of
the command built from the marker, the channel, the labels and the
artifact paths). -/
theorem c5_token_redaction_amended (pkgs : List CCPkgName) (cfg : SharedConfig)
    (bld : CondaBldConfig) (fe : String → Bool) (t : String) (paths : List String)
    (err : String)
    (htok : cfg.tokenString = "-t " ++ t)
    (hpaths : mapExcept (resolvePath bld fe) pkgs = .ok paths)
    (herr : upload_package pkgs cfg bld fe false = .error (.calledProcessError err))
    (hsafe : isSubstr t.data (uploadCmdRedactedText paths cfg).data = false) :
    isSubstr t.data err.data = false := by
  have htne : cfg.tokenString ≠ "" := by
    rw [htok]; intro hc
    have h2 := congrArg String.data hc
    rw [String.data_append, show ("-t " : String).data = ['-', 't', ' '] from rfl] at h2
    simp at h2
  have herr2 : err =
      pyReplace (uploadCmdOf paths cfg) cfg.tokenString "<token-string removed>" := by
    simp only [upload_package, hpaths, Bool.false_eq_true, if_false, if_pos htne,
      Except.error.injEq, PyError.calledProcessError.injEq] at herr
    exact herr.symm
  have hpd : cfg.tokenString.data = '-' :: 't' :: ' ' :: t.data := by
    rw [htok, String.data_append, show ("-t " : String).data = ['-', 't', ' '] from rfl]
    rfl
  have hS : (uploadCmdOf paths cfg).data =
      ("anaconda " : String).data ++
        (cfg.tokenString.data ++ (uploadCmdTailText paths cfg).data) := by
    simp [uploadCmdOf, uploadCmdTailText, String.data_append, List.append_assoc]
  have hRed : (uploadCmdRedactedText paths cfg).data =
      ("anaconda " : String).data ++
        (("<token-string removed>" : String).data ++ (uploadCmdTailText paths cfg).data) := by
    simp [uploadCmdRedactedText, String.data_append, List.append_assoc]
  have hA : ('-' : Char) ∉ ("anaconda " : String).data := by decide
  have herrdata : err.data =
      replaceAllL cfg.tokenString.data ("<token-string removed>" : String).data
        (uploadCmdOf paths cfg).data := by
    rw [herr2]; rfl
  rw [herrdata, hS, hpd]
  rw [replaceAllL_head_miss '-' ('t' :: ' ' :: t.data) _ _ _ hA]
  rw [replaceAllL_head_hit ('-' :: 't' :: ' ' :: t.data) _ _ (by simp)]
  have hnotB : isSubstr ('-' :: 't' :: ' ' :: t.data)
      (uploadCmdTailText paths cfg).data = false := by
    by_contra hIn
    have hIn' : isSubstr ('-' :: 't' :: ' ' :: t.data)
        (uploadCmdTailText paths cfg).data = true := by
      revert hIn
      cases isSubstr ('-' :: 't' :: ' ' :: t.data) (uploadCmdTailText paths cfg).data <;> simp
    have hsub : isSubstr t.data ('-' :: 't' :: ' ' :: t.data) = true := by
      have := isSubstr_append_left_any t.data ['-', 't', ' '] t.data (isSubstr_self t.data)
      simpa using this
    have htB : isSubstr t.data (uploadCmdTailText paths cfg).data = true :=
      isSubstr_trans _ _ _ hsub hIn'
    have hbad : isSubstr t.data (uploadCmdRedactedText paths cfg).data = true := by
      rw [hRed]
      exact isSubstr_append_left_any _ _ _ (isSubstr_append_left_any _ _ _ htB)
    simp [hbad] at hsafe
  rw [replaceAllL_not_substr _ _ _ (by simp) hnotB]
  rw [hRed] at hsafe
  exact hsafe

/-- Configuration with an ordinary secret token, for the C5 witness. -/
def c5wcfg : SharedConfig :=
  { condaSourceChannelList := [], uploadChannel := "chan",
    destinationChannel := "chan", tokenString := "-t SECRET" }

/-- The error text surfaced by the failing upload under `c5wcfg`. -/
def c5werr : String :=
  match upload_package [⟨"pkg", "1.0", "0"⟩] c5wcfg ⟨"linux", "64", "/bld"⟩
      (fun _ => true) false with
  | .error (.calledProcessError e) => e
  | _ => ""

/-- Witness for the amended C5: the secret `SECRET` does not survive into
the surfaced error text. -/
theorem c5_token_redaction_witness : isSubstr "SECRET".data c5werr.data = false :=
  c5_token_redaction_amended [⟨"pkg", "1.0", "0"⟩] c5wcfg ⟨"linux", "64", "/bld"⟩
    (fun _ => true) "SECRET" ["/bld/linux-64/pkg-1.0-0.tar.bz2"] c5werr
    (by decide) (by decide) (by decide) (by decide)

/-- C10: when both a start-from cursor and an explicit recipe selection
are given, a selected recipe whose position in the canonical list precedes
the start-from recipe is silently omitted from the returned selection:
selected names are validated against the full canonical name list while
filtering is applied to the truncated list, so the call succeeds (no
error, no exclusion diagnostic) and the recipe is absent from the
result. -/
theorem c10_start_from_selection_omits (start_from : String)
    (selected : List String) (path : String) (full : List RecipeSpec) (n : String)
    (hsf : start_from ≠ "")
    (hmem : (full.map (·.name)).contains start_from = true)
    (hsel : ∀ s ∈ selected, (full.map (·.name)).contains s = true)
    (hn : n ∈ selected)
    (hnot : n ∉ ((full.drop ((full.map (·.name)).indexOf start_from)).map (·.name))) :
    get_selected_specs start_from selected path full =
      .ok ((full.drop ((full.map (·.name)).indexOf start_from)).filter
             (fun spec => selected.contains spec.name),
           ((full.drop ((full.map (·.name)).indexOf start_from)).filter
             (fun spec => selected.contains spec.name)).map (·.name) != selected) ∧
    n ∉ (((full.drop ((full.map (·.name)).indexOf start_from)).filter
            (fun spec => selected.contains spec.name)).map (·.name)) := by
  have hselne : selected.isEmpty = false := by
    cases selected with
    | nil => simp at hn
    | cons a l => rfl
  have hinv : selected.filter (fun s => !((full.map (·.name)).contains s)) = [] := by
    apply List.filter_eq_nil_iff.mpr
    intro a ha
    rw [hsel a ha]
    simp
  constructor
  · simp only [get_selected_specs, if_pos hsf, hmem, Bool.not_true, Bool.false_eq_true,
      if_false, hselne, hinv, List.isEmpty_nil, Bool.not_false, if_true]
  · intro hmem2
    apply hnot
    obtain ⟨spec, hspec, hname⟩ := List.mem_map.mp hmem2
    exact List.mem_map.mpr ⟨spec, List.mem_of_mem_filter hspec, hname⟩

/-- Three-recipe canonical list for the C10 witness. -/
def c10full : List RecipeSpec :=
  [{ name := "a", recipeRepo := "r", tag := "t", recipeSubdir := "s" },
   { name := "b", recipeRepo := "r", tag := "t", recipeSubdir := "s" },
   { name := "c", recipeRepo := "r", tag := "t", recipeSubdir := "s" }]

/-- Witness for C10: selecting `a` and `c` while starting from `b` drops
`a` silently — the call succeeds and `a` is not in the result. -/
theorem c10_start_from_selection_omits_witness :
    get_selected_specs "b" ["a", "c"] "specs.yaml" c10full =
      .ok ((c10full.drop ((c10full.map (·.name)).indexOf "b")).filter
             (fun spec => (["a", "c"] : List String).contains spec.name),
           ((c10full.drop ((c10full.map (·.name)).indexOf "b")).filter
             (fun spec => (["a", "c"] : List String).contains spec.name)).map (·.name) !=
             (["a", "c"] : List String)) ∧
    "a" ∉ (((c10full.drop ((c10full.map (·.name)).indexOf "b")).filter
              (fun spec => (["a", "c"] : List String).contains spec.name)).map (·.name)) :=
  c10_start_from_selection_omits "b" ["a", "c"] "specs.yaml" c10full "a"
    (by decide) (by decide) (by decide) (by decide) (by decide)

/-- Reduction of the pipeline after the platform filter passes: the run
proceeds through checkout, render, existence check and the skip/build
decision. -/
theorem build_and_upload_recipe_eq (spec : RecipeSpec) (cfg : SharedConfig)
    (bld : CondaBldConfig) (w : World)
    (hvalid : ∀ ps, spec.buildOn = some ps →
      ps.all (fun o => ["win", "osx", "linux"].contains o) = true)
    (hplat : (spec.buildOn.getD ["win", "osx", "linux"]).contains bld.platform = true) :
    build_and_upload_recipe spec cfg bld w =
      if !w.checkoutOk then
        .error (.runtimeError ("Failed to clone or update the repository: " ++ spec.recipeRepo))
      else
        match get_rendered_version spec.name spec.recipeSubdir cfg w.renderOutput with
        | .error e => .error e
        | .ok c_pkg_names =>
          match check_already_exists c_pkg_names cfg w.searchOutcome with
          | .error e => .error e
          | .ok packages_found =>
            if packages_found.all (fun x => x.2) then
              .ok (.found c_pkg_names, [], coerceSpecEnv spec)
            else
              match build_recipe spec.name spec.recipeSubdir
                  (match spec.condaBuildFlags with
                   | none => []
                   | some s => if s = "" then [] else s.splitOn " ") cfg w.buildOk with
              | .error e => .error e
              | .ok build_cmd =>
                match upload_package c_pkg_names cfg bld w.fileExists w.uploadOk with
                | .error e => .error e
                | .ok (package_paths, upload_cmd) =>
                  .ok (.built c_pkg_names,
                       [.build build_cmd, .upload upload_cmd package_paths],
                       coerceSpecEnv spec) := by
  cases hbo : spec.buildOn with
  | none =>
    rw [hbo] at hplat
    simp only [Option.getD] at hplat
    simp only [build_and_upload_recipe, hbo, hplat, Bool.not_true, Bool.false_eq_true,
      if_false]
  | some ps =>
    have hv := hvalid ps hbo
    rw [hbo] at hplat
    simp only [Option.getD] at hplat
    simp only [build_and_upload_recipe, hbo, hv, hplat, Bool.not_true, Bool.false_eq_true,
      if_false, if_true]

/-- C6: a recipe that renders to zero identities makes the pipeline run
fail — the empty identity tuple makes the existence check raise on its
first element before any search, build or upload invocation — so the run
does not reach the skip/build decision and records the recipe neither as
found nor as built. -/
theorem c6_zero_identities_error (spec : RecipeSpec) (cfg : SharedConfig)
    (bld : CondaBldConfig) (w : World)
    (hvalid : ∀ ps, spec.buildOn = some ps →
      ps.all (fun o => ["win", "osx", "linux"].contains o) = true)
    (hplat : (spec.buildOn.getD ["win", "osx", "linux"]).contains bld.platform = true)
    (hco : w.checkoutOk = true)
    (hrender : get_rendered_version spec.name spec.recipeSubdir cfg w.renderOutput = .ok []) :
    build_and_upload_recipe spec cfg bld w = .error .indexError := by
  rw [build_and_upload_recipe_eq spec cfg bld w hvalid hplat, hco, hrender]
  rfl

/-- Recipe spec used to instantiate the pipeline theorems on a concrete
run. -/
def wspec : RecipeSpec :=
  { name := "pkg", recipeRepo := "r", tag := "t", recipeSubdir := "s" }

/-- Build configuration used to instantiate the pipeline theorems. -/
def wbld : CondaBldConfig := { platform := "linux", arch := "64", build_folder := "/bld" }

/-- A world whose render output carries no artifact token at all. -/
def c6world : World :=
  { checkoutOk := true, renderOutput := "no artifacts here",
    searchOutcome := .success [], buildOk := true,
    fileExists := fun _ => true, uploadOk := true }

/-- Witness for C6 on a concrete zero-identity run. -/
theorem c6_zero_identities_error_witness :
    build_and_upload_recipe wspec cfgCondaBackend wbld c6world = .error .indexError :=
  c6_zero_identities_error wspec cfgCondaBackend wbld c6world
    (by intro ps h; simp [wspec] at h) (by decide) (by decide) (by decide)

/-- Value-coercion is the identity on an environment whose values are
already strings. -/
theorem coerceEnvList_id (l : List (String × PyVal))
    (h : ∀ kv ∈ l, ∃ s, kv.2 = PyVal.str s) :
    l.map (fun kv => (kv.1, PyVal.str (pyStr kv.2))) = l := by
  induction l with
  | nil => rfl
  | cons kv l' ih =>
    obtain ⟨k, v⟩ := kv
    obtain ⟨s, hs⟩ := h (k, v) (by simp)
    simp only at hs
    subst hs
    simp only [List.map_cons, ih (fun x hx => h x (by simp [hx]))]
    rfl

theorem coerceSpecEnv_id (spec : RecipeSpec)
    (h : ∀ kv ∈ spec.environment.getD [], ∃ s, kv.2 = PyVal.str s) :
    coerceSpecEnv spec = spec := by
  obtain ⟨nm, rr, tg, sd, cbf, bo, env⟩ := spec
  cases env with
  | none => rfl
  | some l =>
    simp only [Option.getD] at h
    simp [coerceSpecEnv, coerceEnvList_id l h]

/-- Recipe spec whose environment carries a non-string value. -/
def c9spec : RecipeSpec :=
  { name := "pkg", recipeRepo := "r", tag := "t", recipeSubdir := "s",
    environment := some [("X", PyVal.int 5)] }

/-- A world in which the single rendered identity is already published, so
the run takes the skip path. -/
def c9world : World :=
  { checkoutOk := true, renderOutput := "/p/pkg-1.0-0.tar.bz2",
    searchOutcome := .success [("pkg", [⟨"1.0", "0"⟩])], buildOk := true,
    fileExists := fun _ => true, uploadOk := true }

/-- The recipe-spec value after the concrete C9 run. -/
def c9specAfter : RecipeSpec :=
  match build_and_upload_recipe c9spec cfgCondaBackend wbld c9world with
  | .ok (_, _, s) => s
  | _ => c9spec

/-- C9 counterexample: processing a recipe does modify the loaded
RecipeSpec value — its `environment` values are coerced to strings in
place (`5` becomes `"5"`), so the spec after the successful run differs
from the loaded one. -/
theorem c9_spec_mutation_counterexample :
    build_and_upload_recipe c9spec cfgCondaBackend wbld c9world =
      .ok (.found [⟨"pkg", "1.0", "0"⟩], [], c9specAfter) ∧
    c9specAfter ≠ c9spec := by
  refine ⟨by decide, by decide⟩

/-- C9 (amended): a run leaves the RecipeSpec unchanged **except** that
the values of its optional `environment` mapping are coerced to strings in
place; a platform-skipped run does not touch the spec, and when every
environment value is already a string the spec is unchanged. -/
theorem c9_spec_frame_amended (spec : RecipeSpec) (cfg : SharedConfig)
    (bld : CondaBldConfig) (w : World) (st : Status) (tr : List Invocation)
    (spec2 : RecipeSpec)
    (h : build_and_upload_recipe spec cfg bld w = .ok (st, tr, spec2)) :
    (st = .skipped → spec2 = spec) ∧
    (st ≠ .skipped → spec2 = coerceSpecEnv spec) ∧
    ((∀ kv ∈ spec.environment.getD [], ∃ s, kv.2 = PyVal.str s) → spec2 = spec) := by
  simp only [build_and_upload_recipe] at h
  split at h
  · exact absurd h (by simp)
  · split at h
    · -- platform-skipped path
      simp only [Except.ok.injEq, Prod.mk.injEq] at h
      obtain ⟨hst, -, hsp⟩ := h
      refine ⟨fun _ => hsp.symm, fun hne => absurd hst.symm hne, fun _ => hsp.symm⟩
    · split at h
      · exact absurd h (by simp)
      · split at h
        · exact absurd h (by simp)
        · split at h
          · exact absurd h (by simp)
          · split at h
            · -- skip-and-record-found path
              simp only [Except.ok.injEq, Prod.mk.injEq] at h
              obtain ⟨hst, -, hsp⟩ := h
              refine ⟨fun hsk => absurd (hst ▸ hsk) (by simp), fun _ => hsp.symm,
                fun hall => ?_⟩
              rw [← hsp, coerceSpecEnv_id spec hall]
            · split at h
              · exact absurd h (by simp)
              · split at h
                · exact absurd h (by simp)
                · -- build-and-upload path
                  simp only [Except.ok.injEq, Prod.mk.injEq] at h
                  obtain ⟨hst, -, hsp⟩ := h
                  refine ⟨fun hsk => absurd (hst ▸ hsk) (by simp), fun _ => hsp.symm,
                    fun hall => ?_⟩
                  rw [← hsp, coerceSpecEnv_id spec hall]

/-- Recipe spec whose environment values are all strings already. -/
def c9wspec : RecipeSpec :=
  { name := "pkg", recipeRepo := "r", tag := "t", recipeSubdir := "s",
    environment := some [("X", PyVal.str "y")] }

/-- The recipe-spec value after the all-string C9 witness run. -/
def c9wspecAfter : RecipeSpec :=
  match build_and_upload_recipe c9wspec cfgCondaBackend wbld c9world with
  | .ok (_, _, s) => s
  | _ => c9spec

/-- Witness for the amended C9: with an all-string environment the spec
value is unchanged by the run. -/
theorem c9_spec_frame_amended_witness : c9wspecAfter = c9wspec :=
  (c9_spec_frame_amended c9wspec cfgCondaBackend wbld c9world
      (.found [⟨"pkg", "1.0", "0"⟩]) [] c9wspecAfter (by decide)).2.2
    (by
      intro kv hkv
      have hkv2 : kv = ("X", PyVal.str "y") := by
        simpa [c9wspec] using hkv
      exact ⟨"y", by rw [hkv2]⟩)

/-- Recognizer for build invocations in a trace. -/
def isBuildInv : Invocation → Bool
  | .build _ => true
  | .upload _ _ => false

/-- Recognizer for upload invocations in a trace. -/
def isUploadInv : Invocation → Bool
  | .upload _ _ => true
  | .build _ => false

/-- An invocation covers the identity tuple when, if it is an upload, its
argument paths include the resolved artifact path of every identity. -/
def uploadCoversAll (pkgs : List CCPkgName) (bld : CondaBldConfig)
    (fe : String → Bool) : Invocation → Bool
  | .build _ => true
  | .upload _ paths =>
    pkgs.all (fun p =>
      match resolvePath bld fe p with
      | .ok q => paths.contains q
      | .error _ => false)

/-- C1: for a recipe whose rendered identity tuple is non-empty, the
pipeline skips building and records the recipe as found iff every identity
is reported found by the existence check; if at least one identity is not
found, the successful run performs exactly one build invocation and
exactly one upload invocation whose arguments cover the artifact paths of
all identities in the tuple, and records the recipe as built. -/
theorem c1_multi_output_skip_or_build (spec : RecipeSpec) (cfg : SharedConfig)
    (bld : CondaBldConfig) (w : World) (pkgs : List CCPkgName)
    (flags : List (CCPkgName × Bool)) (st : Status) (tr : List Invocation)
    (spec2 : RecipeSpec)
    (hvalid : ∀ ps, spec.buildOn = some ps →
      ps.all (fun o => ["win", "osx", "linux"].contains o) = true)
    (hplat : (spec.buildOn.getD ["win", "osx", "linux"]).contains bld.platform = true)
    (hne : pkgs ≠ [])
    (hrender : get_rendered_version spec.name spec.recipeSubdir cfg w.renderOutput = .ok pkgs)
    (hcheck : check_already_exists pkgs cfg w.searchOutcome = .ok flags)
    (h : build_and_upload_recipe spec cfg bld w = .ok (st, tr, spec2)) :
    (flags.all (fun x => x.2) = true → st = .found pkgs ∧ tr = []) ∧
    (flags.all (fun x => x.2) = false →
      st = .built pkgs ∧
      tr.countP (fun i => isBuildInv i) = 1 ∧
      tr.countP (fun i => isUploadInv i) = 1 ∧
      tr.all (uploadCoversAll pkgs bld w.fileExists) = true) := by
  rw [build_and_upload_recipe_eq spec cfg bld w hvalid hplat] at h
  cases hco : w.checkoutOk with
  | false => rw [hco] at h; simp at h
  | true =>
    rw [hco] at h
    simp only [Bool.not_true, Bool.false_eq_true, if_false] at h
    rw [hrender] at h
    simp only at h
    rw [hcheck] at h
    simp only at h
    constructor
    · intro hall
      rw [hall] at h
      simp only [if_true] at h
      simp only [Except.ok.injEq, Prod.mk.injEq] at h
      exact ⟨h.1.symm, h.2.1.symm⟩
    · intro hall
      rw [hall] at h
      simp only [Bool.false_eq_true, if_false] at h
      cases hbr : build_recipe spec.name spec.recipeSubdir
          (match spec.condaBuildFlags with
           | none => []
           | some s => if s = "" then [] else s.splitOn " ") cfg w.buildOk with
      | error e => rw [hbr] at h; simp at h
      | ok build_cmd =>
        rw [hbr] at h
        cases hup : upload_package pkgs cfg bld w.fileExists w.uploadOk with
        | error e => rw [hup] at h; simp at h
        | ok pr =>
          obtain ⟨paths, upload_cmd⟩ := pr
          rw [hup] at h
          simp only [Except.ok.injEq, Prod.mk.injEq] at h
          obtain ⟨hst, htr, -⟩ := h
          subst hst htr
          refine ⟨rfl, by simp [List.countP_cons, isBuildInv, isUploadInv],
            by simp [List.countP_cons, isBuildInv, isUploadInv], ?_⟩
      -- the single upload invocation covers every identity
          have hres : mapExcept (resolvePath bld w.fileExists) pkgs = .ok paths := by
            simp only [upload_package] at hup
            cases hme : mapExcept (resolvePath bld w.fileExists) pkgs with
            | error e => rw [hme] at hup; simp at hup
            | ok ps' =>
              rw [hme] at hup
              cases huo : w.uploadOk with
              | false => rw [huo] at hup; simp at hup
              | true =>
                rw [huo] at hup
                simp only [if_true, Except.ok.injEq, Prod.mk.injEq] at hup
                rw [hup.1]
          have hmem := mapExcept_ok_mem _ _ _ hres
          simp only [List.all_cons, List.all_nil, uploadCoversAll, Bool.and_true,
            Bool.true_and]
          apply List.all_eq_true.mpr
          intro p hp
          obtain ⟨q, hq, hqm⟩ := hmem p hp
          rw [hq]
          simpa using hqm

/-- A world where the recipe renders to two identities of which only the
first is already on the channel (partial presence). -/
def c1world : World :=
  { checkoutOk := true,
    renderOutput := "/p/pkg-1.0-0.tar.bz2\n/p/pkg-1.0-1.tar.bz2",
    searchOutcome := .success [("pkg", [⟨"1.0", "0"⟩])],
    buildOk := true, fileExists := fun _ => true, uploadOk := true }

/-- Status of the concrete C1 run. -/
def c1st : Status :=
  match build_and_upload_recipe wspec cfgCondaBackend wbld c1world with
  | .ok (s, _, _) => s
  | _ => .skipped

/-- Invocation trace of the concrete C1 run. -/
def c1tr : List Invocation :=
  match build_and_upload_recipe wspec cfgCondaBackend wbld c1world with
  | .ok (_, t, _) => t
  | _ => []

/-- Recipe spec after the concrete C1 run. -/
def c1spec2 : RecipeSpec :=
  match build_and_upload_recipe wspec cfgCondaBackend wbld c1world with
  | .ok (_, _, s) => s
  | _ => wspec

/-- Witness for C1: a two-output recipe with one identity found and one
not found is recorded as built with exactly one build and one covering
upload invocation. -/
theorem c1_multi_output_skip_or_build_witness :
    c1st = .built [⟨"pkg", "1.0", "0"⟩, ⟨"pkg", "1.0", "1"⟩] ∧
    c1tr.countP (fun i => isBuildInv i) = 1 ∧
    c1tr.countP (fun i => isUploadInv i) = 1 ∧
    c1tr.all (uploadCoversAll [⟨"pkg", "1.0", "0"⟩, ⟨"pkg", "1.0", "1"⟩] wbld
      c1world.fileExists) = true :=
  (c1_multi_output_skip_or_build wspec cfgCondaBackend wbld c1world
      [⟨"pkg", "1.0", "0"⟩, ⟨"pkg", "1.0", "1"⟩]
      [(⟨"pkg", "1.0", "0"⟩, true), (⟨"pkg", "1.0", "1"⟩, false)]
      c1st c1tr c1spec2
      (by intro ps hps; simp [wspec] at hps) (by decide) (by decide) (by decide)
      (by decide) (by decide)).2 (by decide)
